import Mathlib

/-!
Formal model of the IPv4 router with ARP-resolving network interfaces from
`Projects/P6 - IPv4 Network`.  The repository ships `src/headers/router.hh`
(the `Router` and `AsyncNetworkInterface` declarations and their routing-table
data structure) together with the test suite; the method bodies of
`NetworkInterface` and `Router` are not part of the sources, so they are
modelled here from the specification, pinned where the specification leaves a
choice by the repository's own tests (in particular
`tests/net_interface_test_hidden_5.cc`, which fixes that datagrams queued
behind an ARP request that expires are dropped with it).

Machine integers are modelled as `Nat` with explicit bounds where overflow
matters; time is the millisecond counter advanced only by `tick`.
-/

namespace IPv4Net

/-- Ethernet addresses are 6 bytes; modelled as a natural number below `2 ^ 48`. -/
abbrev EthAddr := Nat

/-- The reserved broadcast Ethernet address `ff:ff:ff:ff:ff:ff`. -/
def ETHERNET_BROADCAST : EthAddr := 2 ^ 48 - 1

/-- EtherType for IPv4 payloads (`0x0800`). -/
def TYPE_IPv4 : Nat := 0x0800

/-- EtherType for ARP payloads (`0x0806`). -/
def TYPE_ARP : Nat := 0x0806

/-- ARP opcode for a request. -/
def OPCODE_REQUEST : Nat := 1

/-- ARP opcode for a reply. -/
def OPCODE_REPLY : Nat := 2

/-- Age bound on learned ARP mappings, in milliseconds. -/
def ARP_MAPPING_TTL : Nat := 30000

/-- Minimum delay before an ARP request for the same IP may be re-sent. -/
def ARP_REQUEST_RETRY : Nat := 5000

/-- An ARP message: opcode, sender Ethernet and IPv4, target Ethernet and IPv4.
In a REQUEST the target Ethernet address is the zero address. -/
structure ARPMessage where
  opcode : Nat
  sender_ethernet_address : EthAddr
  sender_ip_address : Nat
  target_ethernet_address : EthAddr
  target_ip_address : Nat
deriving DecidableEq

/-- The IPv4 header fields (the 20-byte fixed header).  The core mutates only
`ttl` and `cksum` during forwarding. -/
structure IPv4Header where
  ver : Nat
  hlen : Nat
  tos : Nat
  len : Nat
  id : Nat
  df : Bool
  mf : Bool
  offset : Nat
  ttl : Nat
  proto : Nat
  cksum : Nat
  src : Nat
  dst : Nat
deriving DecidableEq

/-- An IPv4 datagram: header plus opaque payload bytes. -/
structure InternetDatagram where
  header : IPv4Header
  payload : List Nat
deriving DecidableEq

/-- One step of the end-around-carry fold of the Internet checksum. -/
def foldCarry (n : Nat) : Nat := n % 65536 + n / 65536

/-- Fold a sum of 16-bit words down to 16 bits; three steps suffice for the
sums that arise from a 20-byte header. -/
def onesCompFold (n : Nat) : Nat := foldCarry (foldCarry (foldCarry n))

/-- The ten 16-bit words of the IPv4 header with the checksum field zeroed. -/
def headerWords (h : IPv4Header) : List Nat :=
  [ h.ver % 16 * 4096 + h.hlen % 16 * 256 + h.tos % 256
  , h.len % 65536
  , h.id % 65536
  , (if h.df then 16384 else 0) + (if h.mf then 8192 else 0) + h.offset % 8192
  , h.ttl % 256 * 256 + h.proto % 256
  , 0
  , h.src / 65536 % 65536
  , h.src % 65536
  , h.dst / 65536 % 65536
  , h.dst % 65536 ]

/-- Modelled from the spec: the checksum arithmetic lives with the header
codecs, outside the shipped sources; it is the one's-complement 16-bit
Internet checksum over the header with the checksum field set to zero. -/
def ipChecksum (h : IPv4Header) : Nat :=
  65535 - onesCompFold (headerWords h).sum

/-- Modelled from the spec: `IPv4Header::compute_checksum` stores the freshly
computed Internet checksum into the header's checksum field. -/
def compute_checksum (h : IPv4Header) : IPv4Header :=
  { h with cksum := ipChecksum h }

/-- A header checksum is valid when the stored field equals the Internet
checksum of the header computed with the field zeroed. -/
def validChecksum (h : IPv4Header) : Prop := h.cksum = ipChecksum h

/-- The payload of an Ethernet frame, already parsed: a serialized IPv4
datagram, or a serialized ARP message.  Attempting to parse a payload of the
other kind fails. -/
inductive EthPayload where
  | ipv4 (d : InternetDatagram)
  | arp (m : ARPMessage)
deriving DecidableEq

/-- An Ethernet frame: destination, source, EtherType, payload. -/
structure EthernetFrame where
  dst : EthAddr
  src : EthAddr
  type : Nat
  payload : EthPayload
deriving DecidableEq

/-! ### Association lists

The `std::unordered_map` containers of the source are modelled as association
lists with insert-or-assign and erase. -/

/-- Look up the first binding of key `k`. -/
def lookupA {α : Type} (k : Nat) : List (Nat × α) → Option α
  | [] => none
  | (k2, v) :: rest => if k2 = k then some v else lookupA k rest

/-- Insert-or-assign: replace the first binding of `k` in place, or append. -/
def insertA {α : Type} (k : Nat) (v : α) : List (Nat × α) → List (Nat × α)
  | [] => [(k, v)]
  | (k2, w) :: rest => if k2 = k then (k, v) :: rest else (k2, w) :: insertA k v rest

/-- Erase every binding of key `k`. -/
def eraseA {α : Type} (k : Nat) : List (Nat × α) → List (Nat × α)
  | [] => []
  | (k2, v) :: rest => if k2 = k then eraseA k rest else (k2, v) :: eraseA k rest

/-- The keys of an association list are pairwise distinct. -/
def keysUnique {α : Type} (l : List (Nat × α)) : Prop :=
  (l.map Prod.fst).Nodup

theorem lookupA_insertA_self {α : Type} (k : Nat) (v : α) (l : List (Nat × α)) :
    lookupA k (insertA k v l) = some v := by
  induction l with
  | nil => simp [insertA, lookupA]
  | cons p rest ih =>
    obtain ⟨k2, w⟩ := p
    by_cases h : k2 = k
    · simp [insertA, lookupA, h]
    · simp [insertA, lookupA, h, ih]

theorem lookupA_insertA_ne {α : Type} (k k2 : Nat) (v : α) (l : List (Nat × α))
    (h : k2 ≠ k) : lookupA k (insertA k2 v l) = lookupA k l := by
  induction l with
  | nil => simp [insertA, lookupA, h]
  | cons p rest ih =>
    obtain ⟨k3, w⟩ := p
    by_cases h3 : k3 = k2
    · subst h3
      simp [insertA, lookupA, h]
    · by_cases hk : k3 = k
      · simp [insertA, lookupA, h3, hk, Ne.symm h]
      · simp [insertA, lookupA, h3, hk, ih]

theorem lookupA_eraseA_self {α : Type} (k : Nat) (l : List (Nat × α)) :
    lookupA k (eraseA k l) = none := by
  induction l with
  | nil => simp [eraseA, lookupA]
  | cons p rest ih =>
    obtain ⟨k2, w⟩ := p
    by_cases h : k2 = k
    · simp [eraseA, h, ih]
    · simp [eraseA, h, lookupA, ih]

theorem lookupA_eraseA_ne {α : Type} (k k2 : Nat) (l : List (Nat × α))
    (h : k2 ≠ k) : lookupA k (eraseA k2 l) = lookupA k l := by
  induction l with
  | nil => simp [eraseA, lookupA]
  | cons p rest ih =>
    obtain ⟨k3, w⟩ := p
    by_cases h3 : k3 = k2
    · subst h3
      simp [eraseA, lookupA, h, ih]
    · by_cases hk : k3 = k
      · simp [eraseA, h3, lookupA, hk, Ne.symm h]
      · simp [eraseA, h3, lookupA, hk, ih]

theorem lookupA_filter_none {α : Type} (k : Nat) (p : Nat × α → Bool)
    (l : List (Nat × α)) (h : lookupA k l = none) :
    lookupA k (l.filter p) = none := by
  induction l with
  | nil => simp [lookupA]
  | cons q rest ih =>
    obtain ⟨k2, w⟩ := q
    by_cases hk : k2 = k
    · simp [lookupA, hk] at h
    · simp only [lookupA, if_neg hk] at h
      by_cases hp : p (k2, w)
      · simp [List.filter_cons, hp, lookupA, hk, ih h]
      · simp [List.filter_cons, hp, ih h]

theorem lookupA_filter_of_pos {α : Type} (k : Nat) (v : α) (p : Nat × α → Bool)
    (l : List (Nat × α)) (h : lookupA k l = some v) (hp : p (k, v) = true) :
    lookupA k (l.filter p) = some v := by
  induction l with
  | nil => simp [lookupA] at h
  | cons q rest ih =>
    obtain ⟨k2, w⟩ := q
    by_cases hk : k2 = k
    · subst hk
      simp only [lookupA, if_pos rfl] at h
      obtain rfl : w = v := by injection h
      simp [List.filter_cons, hp, lookupA]
    · simp only [lookupA, if_neg hk] at h
      by_cases hq : p (k2, w)
      · simp [List.filter_cons, hq, lookupA, hk, ih h]
      · simp [List.filter_cons, hq, ih h]

theorem mem_map_fst_insertA {α : Type} (k k2 : Nat) (v : α) (l : List (Nat × α)) :
    k2 ∈ (insertA k v l).map Prod.fst ↔ k2 = k ∨ k2 ∈ l.map Prod.fst := by
  induction l with
  | nil => simp [insertA]
  | cons p rest ih =>
    obtain ⟨k3, w⟩ := p
    by_cases h3 : k3 = k
    · subst h3
      simp [insertA]
    · simp only [insertA, if_neg h3, List.map_cons, List.mem_cons, ih]
      tauto

theorem lookupA_isSome_iff_mem_fst {α : Type} (k : Nat) (l : List (Nat × α)) :
    (lookupA k l).isSome ↔ k ∈ l.map Prod.fst := by
  induction l with
  | nil => simp [lookupA]
  | cons p rest ih =>
    obtain ⟨k2, w⟩ := p
    by_cases hk : k2 = k
    · simp [lookupA, hk]
    · simp [lookupA, hk, ih, Ne.symm hk]

theorem keysUnique_insertA {α : Type} (k : Nat) (v : α) (l : List (Nat × α))
    (h : keysUnique l) : keysUnique (insertA k v l) := by
  induction l with
  | nil => simp [insertA, keysUnique]
  | cons p rest ih =>
    obtain ⟨k2, w⟩ := p
    simp only [keysUnique, List.map_cons, List.nodup_cons] at h
    by_cases hk : k2 = k
    · subst hk
      simpa [insertA, keysUnique, List.nodup_cons] using h
    · have hrest := ih h.2
      simp only [insertA, if_neg hk, keysUnique, List.map_cons, List.nodup_cons]
      refine ⟨?_, hrest⟩
      rw [mem_map_fst_insertA]
      push_neg
      exact ⟨hk, h.1⟩

/-- Count the bindings of key `k`. -/
def countKey {α : Type} (k : Nat) (l : List (Nat × α)) : Nat :=
  l.countP fun p => p.1 = k

theorem countKey_insertA_self {α : Type} (k : Nat) (v : α) (l : List (Nat × α))
    (h : keysUnique l) : countKey k (insertA k v l) = 1 := by
  induction l with
  | nil => simp [insertA, countKey, List.countP_cons]
  | cons p rest ih =>
    obtain ⟨k2, w⟩ := p
    simp only [keysUnique, List.map_cons, List.nodup_cons] at h
    by_cases hk : k2 = k
    · subst hk
      have hz : countKey k2 rest = 0 := by
        simp only [countKey, List.countP_eq_zero]
        intro q hq
        simp only [decide_eq_true_eq]
        intro heq
        exact h.1 (heq ▸ List.mem_map_of_mem Prod.fst hq)
      simp only [insertA, if_pos rfl, countKey, List.countP_cons, decide_eq_true_eq]
      simp only [countKey] at hz
      simp [hz]
    · have hone := ih h.2
      simp only [insertA, if_neg hk, countKey, List.countP_cons, decide_eq_true_eq]
      simp only [countKey] at hone
      simp [hone, hk]

/-! ### NetworkInterface

The `NetworkInterface` method bodies are not in the shipped sources; they are
modelled from the specification (section 4.1), with the drop-at-expiry
behaviour of pending datagram queues pinned by the repository's test
`net_interface_test_hidden_5.cc`. -/

/-- The state of one network interface: its own addresses, the outbound frame
queue (front first), the ARP cache `ip ↦ (ethernet, learned_at_ms)`, the
pending ARP requests `ip ↦ request_sent_at_ms`, the per-next-hop queues of
datagrams awaiting resolution, and the tick-advanced clock. -/
structure NetworkInterface where
  ethernet_address : EthAddr
  ip_address : Nat
  outbound : List EthernetFrame
  arp_cache : List (Nat × EthAddr × Nat)
  pending_reqs : List (Nat × Nat)
  pending_dgrams : List (Nat × List (InternetDatagram × Nat))
  clock : Nat
deriving DecidableEq

/-- A fresh interface with no learned or queued state. -/
def initInterface (eth : EthAddr) (ip : Nat) : NetworkInterface :=
  { ethernet_address := eth, ip_address := ip, outbound := [], arp_cache := []
  , pending_reqs := [], pending_dgrams := [], clock := 0 }

/-- A cached mapping is usable only while its age is strictly below
`ARP_MAPPING_TTL`. -/
def cacheFresh (n : NetworkInterface) (ip : Nat) : Option EthAddr :=
  match lookupA ip n.arp_cache with
  | some (eth, t) => if n.clock - t < ARP_MAPPING_TTL then some eth else none
  | none => none

/-- An outbound IPv4 frame from this interface carrying datagram `d`. -/
def mkIPv4Frame (n : NetworkInterface) (ethDst : EthAddr) (d : InternetDatagram) :
    EthernetFrame :=
  { dst := ethDst, src := n.ethernet_address, type := TYPE_IPv4, payload := .ipv4 d }

/-- The broadcast ARP REQUEST this interface sends when resolving `ip`:
sender is (our Ethernet, our IPv4), target is (zero Ethernet, `ip`). -/
def mkRequestFrame (n : NetworkInterface) (ip : Nat) : EthernetFrame :=
  { dst := ETHERNET_BROADCAST, src := n.ethernet_address, type := TYPE_ARP
  , payload := .arp { opcode := OPCODE_REQUEST
                    , sender_ethernet_address := n.ethernet_address
                    , sender_ip_address := n.ip_address
                    , target_ethernet_address := 0
                    , target_ip_address := ip } }

/-- A new ARP request for `ip` may go out when none is in flight, or when the
one in flight was sent `ARP_REQUEST_RETRY` or more milliseconds ago. -/
def needNewRequest (n : NetworkInterface) (ip : Nat) : Bool :=
  match lookupA ip n.pending_reqs with
  | none => true
  | some t => decide (ARP_REQUEST_RETRY ≤ n.clock - t)

/-- Modelled from the spec: `NetworkInterface::send_datagram` (the method body
is not in the shipped sources).  If the ARP cache holds a non-expired mapping
for the next hop, emit an IPv4 frame at once; otherwise queue the datagram
under that next hop and, unless a sufficiently recent ARP request for it is in
flight, broadcast an ARP REQUEST and record the send time. -/
def send_datagram (n : NetworkInterface) (d : InternetDatagram) (next_hop : Nat) :
    NetworkInterface :=
  match cacheFresh n next_hop with
  | some eth => { n with outbound := n.outbound ++ [mkIPv4Frame n eth d] }
  | none =>
    let q := (lookupA next_hop n.pending_dgrams).getD []
    let n2 := { n with
      pending_dgrams := insertA next_hop (q ++ [(d, next_hop)]) n.pending_dgrams }
    if needNewRequest n next_hop then
      { n2 with outbound := n2.outbound ++ [mkRequestFrame n next_hop]
              , pending_reqs := insertA next_hop n.clock n.pending_reqs }
    else n2

/-- The ARP REPLY this interface sends back to the requester `m`. -/
def mkReplyFrame (n : NetworkInterface) (m : ARPMessage) : EthernetFrame :=
  { dst := m.sender_ethernet_address, src := n.ethernet_address, type := TYPE_ARP
  , payload := .arp { opcode := OPCODE_REPLY
                    , sender_ethernet_address := n.ethernet_address
                    , sender_ip_address := n.ip_address
                    , target_ethernet_address := m.sender_ethernet_address
                    , target_ip_address := m.sender_ip_address } }

/-- Flush the pending queue for `ip` to the newly learned address `eth`: every
queued datagram becomes an outbound IPv4 frame, in insertion order, and the
queue and the pending-request record for `ip` are removed. -/
def flushPending (n : NetworkInterface) (ip : Nat) (eth : EthAddr) : NetworkInterface :=
  let q := (lookupA ip n.pending_dgrams).getD []
  { n with outbound := n.outbound ++ q.map fun p => mkIPv4Frame n eth p.1
         , pending_dgrams := eraseA ip n.pending_dgrams
         , pending_reqs := eraseA ip n.pending_reqs }

/-- Modelled from the spec: the ARP branch of `NetworkInterface::recv_frame`.
Learn the sender mapping unconditionally; answer a REQUEST aimed at our IPv4
with a REPLY; then flush the pending queue for the sender's IP. -/
def recvArp (n : NetworkInterface) (m : ARPMessage) : NetworkInterface :=
  let n1 := { n with
    arp_cache := insertA m.sender_ip_address (m.sender_ethernet_address, n.clock) n.arp_cache }
  let n2 := if m.opcode = OPCODE_REQUEST ∧ m.target_ip_address = n.ip_address then
      { n1 with outbound := n1.outbound ++ [mkReplyFrame n m] }
    else n1
  flushPending n2 m.sender_ip_address m.sender_ethernet_address

/-- Modelled from the spec: `NetworkInterface::recv_frame` (the method body is
not in the shipped sources).  Frames addressed neither to us nor to broadcast
are dropped without learning; IPv4 payloads are handed upward; ARP payloads
are processed by `recvArp`. -/
def recv_frame (n : NetworkInterface) (fr : EthernetFrame) :
    NetworkInterface × Option InternetDatagram :=
  if fr.dst = n.ethernet_address ∨ fr.dst = ETHERNET_BROADCAST then
    if fr.type = TYPE_IPv4 then
      match fr.payload with
      | .ipv4 d => (n, some d)
      | .arp _ => (n, none)
    else if fr.type = TYPE_ARP then
      match fr.payload with
      | .arp m => (recvArp n m, none)
      | .ipv4 _ => (n, none)
    else (n, none)
  else (n, none)

/-- Does the pending request for `ip` (if any) exceed the retry horizon at
time `now`?  Queues whose request expires are dropped with it. -/
def reqExpired (reqs : List (Nat × Nat)) (now ip : Nat) : Bool :=
  match lookupA ip reqs with
  | some t => decide (ARP_REQUEST_RETRY < now - t)
  | none => false

/-- Modelled from the spec: `NetworkInterface::tick` (the method body is not
in the shipped sources).  Advances the clock; removes ARP cache entries that
have reached `ARP_MAPPING_TTL`; removes pending-request records older than
`ARP_REQUEST_RETRY` and — as pinned by `net_interface_test_hidden_5.cc`
("Pending datagrams dropped when pending request expires") — drops the
datagram queues behind them. -/
def tick (n : NetworkInterface) (ms : Nat) : NetworkInterface :=
  let now := n.clock + ms
  { n with clock := now
         , arp_cache := n.arp_cache.filter fun e => decide (now - e.2.2 < ARP_MAPPING_TTL)
         , pending_reqs := n.pending_reqs.filter fun p => decide (now - p.2 ≤ ARP_REQUEST_RETRY)
         , pending_dgrams := n.pending_dgrams.filter fun q => ! reqExpired n.pending_reqs now q.1 }

/-- Modelled from the spec: `NetworkInterface::maybe_send` removes and returns
the front of the outbound frame queue. -/
def maybe_send (n : NetworkInterface) : NetworkInterface × Option EthernetFrame :=
  match n.outbound with
  | [] => (n, none)
  | f :: rest => ({ n with outbound := rest }, some f)

/-- One host-driven event at an interface. -/
inductive Event where
  | tk (ms : Nat)
  | send (d : InternetDatagram) (nh : Nat)
  | recv (fr : EthernetFrame)
deriving DecidableEq

/-- Apply one event to an interface. -/
def applyEvent (n : NetworkInterface) : Event → NetworkInterface
  | .tk ms => tick n ms
  | .send d nh => send_datagram n d nh
  | .recv fr => (recv_frame n fr).1

/-- Run a sequence of events. -/
def run (n : NetworkInterface) : List Event → NetworkInterface
  | [] => n
  | e :: es => run (applyEvent n e) es

/-- The datagrams sent to next hop `ip` by a sequence of events, in order,
paired with their next hop as they are queued. -/
def sentTo (ip : Nat) : List Event → List (InternetDatagram × Nat)
  | [] => []
  | .send d nh :: es => if nh = ip then (d, ip) :: sentTo ip es else sentTo ip es
  | _ :: es => sentTo ip es

/-- Is the frame an ARP REPLY? -/
def isArpReply (f : EthernetFrame) : Bool :=
  match f.payload with
  | .arp m => f.type = TYPE_ARP && m.opcode = OPCODE_REPLY
  | .ipv4 _ => false

/-- Is the frame an IPv4 frame? -/
def isIPv4Frame (f : EthernetFrame) : Bool := f.type = TYPE_IPv4

/-! ### Router

`router.hh` declares the routing table as an array of 33 maps
`prefix_mask ↦ (interface_num, next_hop_addr)`, indexed by the prefix length,
together with the helpers `get_prefmask`, `find_match`, `process_dgram`,
`process_interface`, `add_route` and `route`; their bodies are not in the
shipped sources and are modelled from the specification over that declared
data structure. -/

/-- The receive-side wrapper of `router.hh`: a `NetworkInterface` plus a FIFO
of received datagrams exposed through `maybe_receive`. -/
structure AsyncNetworkInterface where
  base : NetworkInterface
  datagrams_in : List InternetDatagram
deriving DecidableEq

/-- The router: its interfaces, and the routing table of 33 buckets indexed by
prefix length, each a map from masked prefix to (interface index, optional
next hop). -/
structure Router where
  interfaces : List AsyncNetworkInterface
  routing_table : Nat → List (Nat × Nat × Option Nat)

/-- Modelled from the spec: `Router::get_prefmask` makes a mask from a route,
consisting of the first `prefix_length` bits shifted to the rightmost bits;
the `prefix_length = 0` case is guarded so that no shift of a 32-bit value by
32 occurs. -/
def get_prefmask (prefix_length : Nat) (route : Nat) : Nat :=
  if prefix_length = 0 then 0 else route >>> (32 - prefix_length)

/-- Modelled from the spec: `Router::add_route` registers a route under the
masked prefix in the bucket of its prefix length; a `prefix_length` above 32
or an out-of-range interface index is reported synchronously to the caller
(the returned flag is `false`) and installs nothing. -/
def add_route (rt : Router) ( route_prefix : Nat) (prefix_length : Nat)
    (next_hop : Option Nat) (interface_num : Nat) : Router × Bool :=
  if 32 < prefix_length ∨ rt.interfaces.length ≤ interface_num then (rt, false)
  else
    ({ rt with routing_table := fun p =>
        (if p = prefix_length then
          insertA (get_prefmask prefix_length route_prefix) (interface_num, next_hop)
            (rt.routing_table p)
        else rt.routing_table p) }, true)

/-- Scan buckets from prefix length `p` down to 0 for the first (hence
longest-prefix) match of `dst`; resolve an absent next hop to `dst` itself. -/
def find_match_aux (rt : Router) (dst : Nat) : Nat → Option (Nat × Nat)
  | 0 => (lookupA (get_prefmask 0 dst) (rt.routing_table 0)).map fun r => (r.1, r.2.getD dst)
  | p + 1 =>
    match lookupA (get_prefmask (p + 1) dst) (rt.routing_table (p + 1)) with
    | some r => some (r.1, r.2.getD dst)
    | none => find_match_aux rt dst p

/-- Modelled from the spec: `Router::find_match` uses longest-prefix matching
to find the interface index and next-hop IP for a destination, if any bucket
holds a match. -/
def find_match (rt : Router) (dst : Nat) : Option (Nat × Nat) :=
  find_match_aux rt dst 32

/-- Call `send_datagram d nh` on interface `i`, leaving the others unchanged. -/
def sendOn : List AsyncNetworkInterface → Nat → InternetDatagram → Nat →
    List AsyncNetworkInterface
  | [], _, _, _ => []
  | a :: rest, 0, d, nh => { a with base := send_datagram a.base d nh } :: rest
  | a :: rest, i + 1, d, nh => a :: sendOn rest i d nh

/-- The forwarded copy of a datagram: ttl decremented by one and the header
checksum freshly recomputed. -/
def dec_ttl (d : InternetDatagram) : InternetDatagram :=
  { d with header := compute_checksum { d.header with ttl := d.header.ttl - 1 } }

/-- Modelled from the spec: `Router::process_dgram` drops a datagram whose ttl
is at most 1, otherwise decrements the ttl, recomputes the checksum, and sends
the datagram out of the matched interface towards the matched next hop,
dropping it when no route matches. -/
def process_dgram (rt : Router) (d : InternetDatagram) : Router :=
  if d.header.ttl ≤ 1 then rt
  else
    match find_match rt d.header.dst with
    | none => rt
    | some (i, nh) => { rt with interfaces := sendOn rt.interfaces i (dec_ttl d) nh }

/-- Empty the receive FIFO of interface `i`. -/
def clearAt : List AsyncNetworkInterface → Nat → List AsyncNetworkInterface
  | [], _ => []
  | a :: rest, 0 => { a with datagrams_in := [] } :: rest
  | a :: rest, i + 1 => a :: clearAt rest i

/-- The receive FIFO of interface `i` (empty when out of range). -/
def inQueueAt (rt : Router) (i : Nat) : List InternetDatagram :=
  ((rt.interfaces[i]?).map AsyncNetworkInterface.datagrams_in).getD []

/-- Modelled from the spec: `Router::process_interface` drains every datagram
waiting at interface `i` (via `maybe_receive`) and processes each in arrival
order. -/
def process_interface (rt : Router) (i : Nat) : Router :=
  (inQueueAt rt i).foldl process_dgram { rt with interfaces := clearAt rt.interfaces i }

/-- Modelled from the spec: `Router::route` drains and processes every
interface in turn. -/
def route (rt : Router) : Router :=
  (List.range rt.interfaces.length).foldl process_interface rt

/-! ### Helper lemmas about the router -/

theorem get_prefmask_zero (r : Nat) : get_prefmask 0 r = 0 := rfl

theorem get_prefmask_32 (a : Nat) : get_prefmask 32 a = a := by
  simp [get_prefmask, Nat.shiftRight_eq_div_pow]

theorem get_prefmask_div (p r : Nat) (hr : r < 2 ^ 32) :
    get_prefmask p r = r / 2 ^ (32 - p) := by
  by_cases hp : p = 0
  · subst hp
    have hd : r / 2 ^ 32 = 0 := Nat.div_eq_of_lt hr
    simp only [Nat.sub_zero, hd]
    exact get_prefmask_zero r
  · simp [get_prefmask, hp, Nat.shiftRight_eq_div_pow]

theorem find_match_aux_some (rt : Router) (dst : Nat) (p i nh : Nat)
    (h : find_match_aux rt dst p = some (i, nh)) :
    ∃ q, q ≤ p
      ∧ (∃ nhopt, lookupA (get_prefmask q dst) (rt.routing_table q) = some (i, nhopt)
          ∧ nh = nhopt.getD dst)
      ∧ ∀ q2, q < q2 → q2 ≤ p →
          lookupA (get_prefmask q2 dst) (rt.routing_table q2) = none := by
  induction p with
  | zero =>
    simp only [find_match_aux, Option.map_eq_some'] at h
    obtain ⟨r, hr, hir⟩ := h
    obtain ⟨i2, nhopt⟩ := r
    simp only [Prod.mk.injEq] at hir
    refine ⟨0, le_refl 0, ⟨nhopt, ?_, hir.2.symm⟩,
      fun q2 h1 h2 => absurd (lt_of_lt_of_le h1 h2) (lt_irrefl 0)⟩
    rw [← hir.1]
    exact hr
  | succ p ih =>
    simp only [find_match_aux] at h
    cases hl : lookupA (get_prefmask (p + 1) dst) (rt.routing_table (p + 1)) with
    | some r =>
      rw [hl] at h
      obtain ⟨i2, nhopt⟩ := r
      simp only [Option.some_inj] at h
      refine ⟨p + 1, le_refl _, ⟨nhopt, ?_, ?_⟩,
        fun q2 h1 h2 => absurd (lt_of_lt_of_le h1 h2) (lt_irrefl _)⟩
      · have : i2 = i := congrArg Prod.fst h
        rw [← this]
        exact hl
      · exact (congrArg Prod.snd h).symm
    | none =>
      rw [hl] at h
      obtain ⟨q, hq, hfound, hnone⟩ := ih h
      refine ⟨q, Nat.le_succ_of_le hq, hfound, fun q2 h1 h2 => ?_⟩
      rcases Nat.lt_or_ge q2 (p + 1) with h3 | h3
      · exact hnone q2 h1 (Nat.lt_succ_iff.mp h3)
      · have : q2 = p + 1 := le_antisymm h2 h3
        rw [this]
        exact hl

theorem find_match_aux_none (rt : Router) (dst : Nat) (p : Nat)
    (h : find_match_aux rt dst p = none) :
    ∀ q, q ≤ p → lookupA (get_prefmask q dst) (rt.routing_table q) = none := by
  induction p with
  | zero =>
    intro q hq
    interval_cases q
    simp only [find_match_aux, Option.map_eq_none'] at h
    exact h
  | succ p ih =>
    simp only [find_match_aux] at h
    cases hl : lookupA (get_prefmask (p + 1) dst) (rt.routing_table (p + 1)) with
    | some r => rw [hl] at h; cases h
    | none =>
      rw [hl] at h
      intro q hq
      rcases Nat.lt_or_ge q (p + 1) with h3 | h3
      · exact ih h q (Nat.lt_succ_iff.mp h3)
      · have : q = p + 1 := le_antisymm hq h3
        rw [this]
        exact hl

theorem find_match_table_only (rt : Router) (ifs : List AsyncNetworkInterface) (dst : Nat) :
    find_match { rt with interfaces := ifs } dst = find_match rt dst := by
  have aux : ∀ p, find_match_aux { rt with interfaces := ifs } dst p = find_match_aux rt dst p := by
    intro p
    induction p with
    | zero => rfl
    | succ p ih => simp only [find_match_aux, ih]
  exact aux 32

theorem clearAt_base (l : List AsyncNetworkInterface) (i j : Nat) :
    ((clearAt l i)[j]?).map AsyncNetworkInterface.base
      = (l[j]?).map AsyncNetworkInterface.base := by
  induction l generalizing i j with
  | nil => simp [clearAt]
  | cons a rest ih =>
    cases i with
    | zero =>
      cases j with
      | zero => simp [clearAt]
      | succ j => simp [clearAt]
    | succ i =>
      cases j with
      | zero => simp [clearAt]
      | succ j => simpa [clearAt] using ih i j

theorem clearAt_get_ne (l : List AsyncNetworkInterface) (i j : Nat) (h : j ≠ i) :
    (clearAt l i)[j]? = l[j]? := by
  induction l generalizing i j with
  | nil => simp [clearAt]
  | cons a rest ih =>
    cases i with
    | zero =>
      cases j with
      | zero => exact absurd rfl h
      | succ j => simp [clearAt]
    | succ i =>
      cases j with
      | zero => simp [clearAt]
      | succ j => simpa [clearAt] using ih i j (fun he => h (by simp [he]))

theorem clearAt_dgIn_self (l : List AsyncNetworkInterface) (i : Nat) :
    (((clearAt l i)[i]?).map AsyncNetworkInterface.datagrams_in).getD [] = [] := by
  induction l generalizing i with
  | nil => simp [clearAt]
  | cons a rest ih =>
    cases i with
    | zero => simp [clearAt]
    | succ i => simpa [clearAt] using ih i

theorem clearAt_eq_self (l : List AsyncNetworkInterface) (i : Nat)
    (h : ((l[i]?).map AsyncNetworkInterface.datagrams_in).getD [] = []) :
    clearAt l i = l := by
  induction l generalizing i with
  | nil => rfl
  | cons a rest ih =>
    cases i with
    | zero =>
      simp only [List.getElem?_cons_zero, Option.map_some', Option.getD_some] at h
      cases a
      simp only [clearAt]
      simp_all
    | succ i =>
      simp only [List.getElem?_cons_succ] at h
      simp [clearAt, ih i h]

theorem sendOn_dgIn (l : List AsyncNetworkInterface) (i : Nat) (d : InternetDatagram)
    (nh j : Nat) :
    ((sendOn l i d nh)[j]?).map AsyncNetworkInterface.datagrams_in
      = (l[j]?).map AsyncNetworkInterface.datagrams_in := by
  induction l generalizing i j with
  | nil => simp [sendOn]
  | cons a rest ih =>
    cases i with
    | zero =>
      cases j with
      | zero => simp [sendOn]
      | succ j => simp [sendOn]
    | succ i =>
      cases j with
      | zero => simp [sendOn]
      | succ j => simpa [sendOn] using ih i j

theorem inQueueAt_process_dgram (rt : Router) (d : InternetDatagram) (j : Nat) :
    inQueueAt (process_dgram rt d) j = inQueueAt rt j := by
  unfold process_dgram
  by_cases h : d.header.ttl ≤ 1
  · simp [h]
  · simp only [if_neg h]
    cases hm : find_match rt d.header.dst with
    | none => rfl
    | some p =>
      obtain ⟨i, nh⟩ := p
      simp [inQueueAt, sendOn_dgIn]

theorem process_interface_empty (rt : Router) (i : Nat) (h : inQueueAt rt i = []) :
    process_interface rt i = rt := by
  unfold process_interface
  rw [h]
  simp only [List.foldl_nil]
  rw [clearAt_eq_self rt.interfaces i h]

theorem foldl_process_interface_empty (rt : Router) (idxs : List Nat)
    (h : ∀ j ∈ idxs, inQueueAt rt j = []) :
    idxs.foldl process_interface rt = rt := by
  induction idxs with
  | nil => rfl
  | cons i rest ih =>
    simp only [List.foldl_cons]
    rw [process_interface_empty rt i (h i (by simp))]
    exact ih fun j hj => h j (by simp [hj])

theorem inQueueAt_clear_ne (rt : Router) (k j : Nat) (h : j ≠ k) :
    inQueueAt { rt with interfaces := clearAt rt.interfaces k } j = inQueueAt rt j := by
  simp [inQueueAt, clearAt_get_ne rt.interfaces k j h]

theorem route_single_pending (rt : Router) (d : InternetDatagram) (k : Nat)
    (hk : inQueueAt rt k = [d]) (hothers : ∀ j, j ≠ k → inQueueAt rt j = []) :
    route rt = process_dgram { rt with interfaces := clearAt rt.interfaces k } d := by
  have hklen : k < rt.interfaces.length := by
    by_contra hge
    push_neg at hge
    have hnone : rt.interfaces[k]? = none := by
      rw [List.getElem?_eq_none_iff]
      exact hge
    simp [inQueueAt, hnone] at hk
  obtain ⟨m, hm⟩ : ∃ m, rt.interfaces.length = (k + 1) + m :=
    ⟨rt.interfaces.length - (k + 1), by omega⟩
  unfold route
  rw [hm, List.range_add, List.foldl_append, List.range_succ, List.foldl_append]
  rw [foldl_process_interface_empty rt (List.range k) (fun j hj => by
    have : j < k := List.mem_range.mp hj
    exact hothers j (by omega))]
  have hstep : [k].foldl process_interface rt
      = process_dgram { rt with interfaces := clearAt rt.interfaces k } d := by
    simp only [List.foldl_cons, List.foldl_nil]
    unfold process_interface
    rw [hk]
    simp
  rw [hstep]
  apply foldl_process_interface_empty
  intro j hj
  obtain ⟨j0, hj0, rfl⟩ := List.mem_map.mp hj
  have hne : k + 1 + j0 ≠ k := by omega
  rw [inQueueAt_process_dgram, inQueueAt_clear_ne rt k _ hne]
  exact hothers _ hne

/-! ### Claim theorems -/

/-- C7: the prefix-mask computation is well defined on all of [0, 32]: the
mask of any address at prefix length 0 is 0 (so the default route matches
every destination), at prefix length 32 masked equality is exact 32-bit
equality, the mask is the top `p` bits (`r / 2 ^ (32 - p)`), and whenever the
guarded definition shifts at all the shift amount is below 32. -/
theorem C7_prefmask_well_defined (p a b : Nat) (hp : p ≤ 32) (ha : a < 2 ^ 32)
    (hb : b < 2 ^ 32) :
    get_prefmask 0 a = 0
  ∧ get_prefmask 0 b = 0
  ∧ ((get_prefmask 32 a = get_prefmask 32 b) ↔ a = b)
  ∧ get_prefmask p a = a / 2 ^ (32 - p)
  ∧ (p ≠ 0 → 32 - p < 32) := by
  refine ⟨get_prefmask_zero a, get_prefmask_zero b, ?_, get_prefmask_div p a ha,
    fun h0 => by omega⟩
  rw [get_prefmask_32, get_prefmask_32]

/-- Witness for C7 at prefix length 8 and two concrete addresses. -/
theorem C7_prefmask_well_defined_witness :
    (8 ≤ 32 ∧ 0x0A000505 < 2 ^ 32 ∧ 0x0A000063 < 2 ^ 32)
  ∧ (get_prefmask 0 0x0A000505 = 0
    ∧ get_prefmask 0 0x0A000063 = 0
    ∧ ((get_prefmask 32 0x0A000505 = get_prefmask 32 0x0A000063) ↔ (0x0A000505 : Nat) = 0x0A000063)
    ∧ get_prefmask 8 0x0A000505 = 0x0A000505 / 2 ^ (32 - 8)
    ∧ ((8 : Nat) ≠ 0 → 32 - 8 < 32)) :=
  ⟨⟨by decide, by decide, by decide⟩,
   C7_prefmask_well_defined 8 0x0A000505 0x0A000063 (by decide) (by decide) (by decide)⟩

/-- C9: an `add_route` call with `prefix_length > 32` or an out-of-range
interface index reports the error synchronously (returned flag `false`) and
installs nothing: the router state is unchanged and every subsequent lookup
behaves as if the call had not been made. -/
theorem C9_add_route_invalid (rt : Router) (rp pl : Nat) (nh : Option Nat) (inum : Nat)
    (h : 32 < pl ∨ rt.interfaces.length ≤ inum) :
    (add_route rt rp pl nh inum).2 = false
  ∧ (add_route rt rp pl nh inum).1 = rt
  ∧ ∀ dst, find_match (add_route rt rp pl nh inum).1 dst = find_match rt dst := by
  simp [add_route, h]

/-- Witness for C9: adding a /33 route to an interfaceless router fails and
changes nothing. -/
theorem C9_add_route_invalid_witness :
    (32 < 33 ∨ (Router.mk [] fun _ => []).interfaces.length ≤ 0)
  ∧ ((add_route (Router.mk [] fun _ => []) 0x0A000000 33 none 0).2 = false
    ∧ (add_route (Router.mk [] fun _ => []) 0x0A000000 33 none 0).1 = Router.mk [] (fun _ => [])
    ∧ ∀ dst, find_match (add_route (Router.mk [] fun _ => []) 0x0A000000 33 none 0).1 dst
        = find_match (Router.mk [] fun _ => []) dst) :=
  ⟨Or.inl (by decide),
   C9_add_route_invalid (Router.mk [] fun _ => []) 0x0A000000 33 none 0 (Or.inl (by decide))⟩

/-- C10: each routing-table bucket is a map keyed by the masked prefix: two
`add_route` calls with the same prefix length and the same masked prefix leave
a single binding carrying the later route, and key-uniqueness of every bucket
is preserved, so the candidate at each prefix length is deterministic. -/
theorem C10_routing_table_keyed (rt : Router) (rp1 rp2 pl : Nat) (nh1 nh2 : Option Nat)
    (i1 i2 : Nat) (hpl : pl ≤ 32) (hi1 : i1 < rt.interfaces.length)
    (hi2 : i2 < rt.interfaces.length)
    (hsame : get_prefmask pl rp1 = get_prefmask pl rp2)
    (huniq : ∀ q, keysUnique (rt.routing_table q)) :
    lookupA (get_prefmask pl rp2)
        ((add_route (add_route rt rp1 pl nh1 i1).1 rp2 pl nh2 i2).1.routing_table pl)
      = some (i2, nh2)
  ∧ (∀ q, keysUnique
        ((add_route (add_route rt rp1 pl nh1 i1).1 rp2 pl nh2 i2).1.routing_table q))
  ∧ countKey (get_prefmask pl rp2)
        ((add_route (add_route rt rp1 pl nh1 i1).1 rp2 pl nh2 i2).1.routing_table pl) = 1 := by
  have hc1 : ¬(32 < pl ∨ rt.interfaces.length ≤ i1) := by omega
  have hrt1 : (add_route rt rp1 pl nh1 i1).1 = { rt with routing_table := fun p =>
      (if p = pl then insertA (get_prefmask pl rp1) (i1, nh1) (rt.routing_table p)
       else rt.routing_table p) } := by
    simp [add_route, hc1]
  have hc2 : ¬(32 < pl ∨ ((add_route rt rp1 pl nh1 i1).1).interfaces.length ≤ i2) := by
    rw [hrt1]
    simpa using by omega
  have hrt2 : (add_route (add_route rt rp1 pl nh1 i1).1 rp2 pl nh2 i2).1.routing_table
      = fun p => (if p = pl then
          insertA (get_prefmask pl rp2) (i2, nh2)
            (insertA (get_prefmask pl rp1) (i1, nh1) (rt.routing_table p))
        else rt.routing_table p) := by
    rw [hrt1] at hc2 ⊢
    simp only [add_route, if_neg hc2]
    funext p
    by_cases hp : p = pl
    · simp [hp]
    · simp [hp]
  rw [hrt2]
  refine ⟨?_, ?_, ?_⟩
  · rw [hsame] at *
    simp [lookupA_insertA_self]
  · intro q
    by_cases hq : q = pl
    · subst hq
      simp only [if_pos rfl]
      exact keysUnique_insertA _ _ _ (keysUnique_insertA _ _ _ (huniq q))
    · simpa [hq] using huniq q
  · rw [hsame] at *
    simp only [if_pos rfl]
    exact countKey_insertA_self _ _ _ (keysUnique_insertA _ _ _ (huniq pl))

/-- Single-interface router with an empty table for the C10 witness. -/
def rtC10 : Router :=
  { interfaces := [{ base := initInterface 10 1, datagrams_in := [] }]
  , routing_table := fun _ => [] }

/-- Witness for C10: installing two /16 routes with the same masked prefix
leaves one binding holding the later route. -/
theorem C10_routing_table_keyed_witness :
    ((16 : Nat) ≤ 32 ∧ 0 < rtC10.interfaces.length
      ∧ get_prefmask 16 0x0A000000 = get_prefmask 16 0x0A00FFFF
      ∧ ∀ q, keysUnique (rtC10.routing_table q))
  ∧ (lookupA (get_prefmask 16 0x0A00FFFF)
        ((add_route (add_route rtC10 0x0A000000 16 none 0).1
          0x0A00FFFF 16 (some 5) 0).1.routing_table 16)
      = some (0, some 5)
    ∧ (∀ q, keysUnique
        ((add_route (add_route rtC10 0x0A000000 16 none 0).1
          0x0A00FFFF 16 (some 5) 0).1.routing_table q))
    ∧ countKey (get_prefmask 16 0x0A00FFFF)
        ((add_route (add_route rtC10 0x0A000000 16 none 0).1
          0x0A00FFFF 16 (some 5) 0).1.routing_table 16) = 1) :=
  ⟨⟨by decide, by decide, by decide, fun q => by simp [rtC10, keysUnique]⟩,
   C10_routing_table_keyed rtC10 0x0A000000 0x0A00FFFF 16 none (some 5) 0 0
     (by decide) (by decide) (by decide) (by decide)
     (fun q => by simp [rtC10, keysUnique])⟩

/-- C1: a datagram drained by `route()` with ttl above 1 is forwarded by
`send_datagram` on the interface of the route with the greatest matching
prefix length, with next hop the route's `next_hop` when present and the
datagram's destination otherwise; a zero prefix length masks every
destination to 0; masked-key equality at prefix length `p` is exactly
equality of the top `p` bits; and with no matching route the datagram is
dropped, leaving every interface untouched. -/
theorem C1_longest_prefix_forwarding (rt : Router) (d : InternetDatagram) (k : Nat)
    (hk : inQueueAt rt k = [d]) (hothers : ∀ j, j ≠ k → inQueueAt rt j = [])
    (httl : 1 < d.header.ttl) :
    (∀ i nh, find_match rt d.header.dst = some (i, nh) →
        (route rt).interfaces = sendOn (clearAt rt.interfaces k) i (dec_ttl d) nh
      ∧ ∃ p, p ≤ 32
          ∧ (∃ nhopt,
              lookupA (get_prefmask p d.header.dst) (rt.routing_table p) = some (i, nhopt)
              ∧ nh = nhopt.getD d.header.dst)
          ∧ ∀ q, p < q → q ≤ 32 →
              lookupA (get_prefmask q d.header.dst) (rt.routing_table q) = none)
  ∧ (find_match rt d.header.dst = none →
        route rt = { rt with interfaces := clearAt rt.interfaces k }
      ∧ (∀ q, q ≤ 32 → lookupA (get_prefmask q d.header.dst) (rt.routing_table q) = none)
      ∧ ∀ j : Nat, ((route rt).interfaces[j]?).map AsyncNetworkInterface.base
            = (rt.interfaces[j]?).map AsyncNetworkInterface.base)
  ∧ (∀ rp, get_prefmask 0 d.header.dst = get_prefmask 0 rp)
  ∧ (∀ p rp, p ≤ 32 → rp < 2 ^ 32 → d.header.dst < 2 ^ 32 →
      (get_prefmask p d.header.dst = get_prefmask p rp ↔
        d.header.dst / 2 ^ (32 - p) = rp / 2 ^ (32 - p))) := by
  have hroute := route_single_pending rt d k hk hothers
  have hfm := find_match_table_only rt (clearAt rt.interfaces k) d.header.dst
  have httl2 : ¬d.header.ttl ≤ 1 := by omega
  refine ⟨?_, ?_, fun rp => by rw [get_prefmask_zero, get_prefmask_zero], ?_⟩
  · intro i nh hsome
    constructor
    · rw [hroute]
      unfold process_dgram
      rw [if_neg httl2, hfm, hsome]
    · exact find_match_aux_some rt d.header.dst 32 i nh hsome
  · intro hnone
    have hroute2 : route rt = { rt with interfaces := clearAt rt.interfaces k } := by
      rw [hroute]
      unfold process_dgram
      rw [if_neg httl2, hfm, hnone]
    refine ⟨hroute2, fun q hq => find_match_aux_none rt d.header.dst 32 hnone q hq, ?_⟩
    intro j
    rw [hroute2]
    exact clearAt_base rt.interfaces k j
  · intro p rp hp hrp hdst
    rw [get_prefmask_div p _ hdst, get_prefmask_div p _ hrp]

/-- C2: a datagram drained by `route()` with ttl at most 1 is dropped — no
interface state changes at all, so no outbound traffic results; otherwise the
forwarded copy has ttl decremented by one (hence at least 1, so a ttl-0
datagram is never forwarded), a freshly recomputed valid checksum, every
other header field and the payload unchanged, and is handed to
`send_datagram` on the matched interface. -/
theorem C2_ttl_decrement_and_checksum (rt : Router) (d : InternetDatagram) (k : Nat)
    (hk : inQueueAt rt k = [d]) (hothers : ∀ j, j ≠ k → inQueueAt rt j = []) :
    (d.header.ttl ≤ 1 →
        route rt = { rt with interfaces := clearAt rt.interfaces k }
      ∧ ∀ j : Nat, ((route rt).interfaces[j]?).map AsyncNetworkInterface.base
            = (rt.interfaces[j]?).map AsyncNetworkInterface.base)
  ∧ (1 < d.header.ttl →
        (dec_ttl d).header.ttl = d.header.ttl - 1
      ∧ 1 ≤ (dec_ttl d).header.ttl
      ∧ validChecksum (dec_ttl d).header
      ∧ (dec_ttl d).header.src = d.header.src
      ∧ (dec_ttl d).header.dst = d.header.dst
      ∧ (dec_ttl d).header.ver = d.header.ver
      ∧ (dec_ttl d).header.hlen = d.header.hlen
      ∧ (dec_ttl d).header.tos = d.header.tos
      ∧ (dec_ttl d).header.len = d.header.len
      ∧ (dec_ttl d).header.id = d.header.id
      ∧ (dec_ttl d).header.df = d.header.df
      ∧ (dec_ttl d).header.mf = d.header.mf
      ∧ (dec_ttl d).header.offset = d.header.offset
      ∧ (dec_ttl d).header.proto = d.header.proto
      ∧ (dec_ttl d).payload = d.payload
      ∧ ∀ i nh, find_match rt d.header.dst = some (i, nh) →
          (route rt).interfaces = sendOn (clearAt rt.interfaces k) i (dec_ttl d) nh) := by
  have hroute := route_single_pending rt d k hk hothers
  have hfm := find_match_table_only rt (clearAt rt.interfaces k) d.header.dst
  constructor
  · intro httl
    have hroute2 : route rt = { rt with interfaces := clearAt rt.interfaces k } := by
      rw [hroute]
      unfold process_dgram
      rw [if_pos httl]
    refine ⟨hroute2, fun j => ?_⟩
    rw [hroute2]
    exact clearAt_base rt.interfaces k j
  · intro httl
    have httl2 : ¬d.header.ttl ≤ 1 := by omega
    refine ⟨rfl, by simp [dec_ttl, compute_checksum]; omega, rfl, rfl, rfl, rfl, rfl, rfl,
      rfl, rfl, rfl, rfl, rfl, rfl, rfl, ?_⟩
    intro i nh hsome
    rw [hroute]
    unfold process_dgram
    rw [if_neg httl2, hfm, hsome]

/-! ### Concrete fixtures for the router witnesses -/

/-- A concrete IPv4 header with given ttl and destination. -/
def mkHeader (t dst : Nat) : IPv4Header :=
  { ver := 4, hlen := 5, tos := 0, len := 25, id := 7, df := false, mf := false
  , offset := 0, ttl := t, proto := 17, cksum := 0, src := 0x05060708, dst := dst }

/-- A datagram to 10.0.5.5 with ttl 64. -/
def dW : InternetDatagram := { header := mkHeader 64 0x0A000505, payload := [1, 2] }

/-- A datagram to 10.0.5.5 with ttl 1. -/
def dT1 : InternetDatagram := { header := mkHeader 1 0x0A000505, payload := [3] }

/-- An idle interface with a given receive FIFO. -/
def asyncIf (e ip : Nat) (q : List InternetDatagram) : AsyncNetworkInterface :=
  { base := initInterface e ip, datagrams_in := q }

/-- A routing table holding 10.0.0.0/8 via interface 0 (directly connected)
and 10.0.0.0/16 via interface 1 with next hop 10.0.0.1. -/
def tableW : Nat → List (Nat × Nat × Option Nat) := fun p =>
  if p = 8 then [(0x0A, 0, none)]
  else if p = 16 then [(0x0A00, 1, some 0x0A000001)] else []

/-- Three-interface router with `dW` waiting at interface 2. -/
def rtC1 : Router :=
  { interfaces := [asyncIf 10 1 [], asyncIf 11 2 [], asyncIf 12 3 [dW]]
  , routing_table := tableW }

/-- Three-interface router with the ttl-1 datagram waiting at interface 2. -/
def rtC2 : Router :=
  { interfaces := [asyncIf 10 1 [], asyncIf 11 2 [], asyncIf 12 3 [dT1]]
  , routing_table := tableW }

theorem rtC1_quiet : ∀ j, j ≠ 2 → inQueueAt rtC1 j = [] := by
  intro j hj
  match j with
  | 0 => rfl
  | 1 => rfl
  | 2 => exact absurd rfl hj
  | n + 3 => simp [inQueueAt, rtC1]

theorem rtC2_quiet : ∀ j, j ≠ 2 → inQueueAt rtC2 j = [] := by
  intro j hj
  match j with
  | 0 => rfl
  | 1 => rfl
  | 2 => exact absurd rfl hj
  | n + 3 => simp [inQueueAt, rtC2]

/-- Witness for C1: the concrete datagram to 10.0.5.5 is forwarded out of
interface 1 (the /16 route) towards next hop 10.0.0.1. -/
theorem C1_longest_prefix_forwarding_witness :
    (inQueueAt rtC1 2 = [dW] ∧ 1 < dW.header.ttl
      ∧ find_match rtC1 dW.header.dst = some (1, 0x0A000001))
  ∧ ((route rtC1).interfaces = sendOn (clearAt rtC1.interfaces 2) 1 (dec_ttl dW) 0x0A000001
    ∧ ∃ p, p ≤ 32
        ∧ (∃ nhopt,
            lookupA (get_prefmask p dW.header.dst) (rtC1.routing_table p) = some (1, nhopt)
            ∧ (0x0A000001 : Nat) = nhopt.getD dW.header.dst)
        ∧ ∀ q, p < q → q ≤ 32 →
            lookupA (get_prefmask q dW.header.dst) (rtC1.routing_table q) = none) :=
  ⟨⟨by decide, by decide, by decide⟩,
   (C1_longest_prefix_forwarding rtC1 dW 2 (by decide) rtC1_quiet (by decide)).1
     1 0x0A000001 (by decide)⟩

/-- Witness for C2: the ttl-1 datagram is dropped with every interface's
state intact, and the forwarded copy of the ttl-64 datagram has ttl 63, a
valid checksum, and unchanged payload. -/
theorem C2_ttl_decrement_and_checksum_witness :
    (inQueueAt rtC2 2 = [dT1] ∧ dT1.header.ttl ≤ 1
      ∧ inQueueAt rtC1 2 = [dW] ∧ 1 < dW.header.ttl)
  ∧ (route rtC2 = { rtC2 with interfaces := clearAt rtC2.interfaces 2 }
    ∧ ∀ j : Nat, ((route rtC2).interfaces[j]?).map AsyncNetworkInterface.base
          = (rtC2.interfaces[j]?).map AsyncNetworkInterface.base)
  ∧ ((dec_ttl dW).header.ttl = dW.header.ttl - 1
    ∧ validChecksum (dec_ttl dW).header
    ∧ (dec_ttl dW).payload = dW.payload) := by
  have h2 := (C2_ttl_decrement_and_checksum rtC2 dT1 2 (by decide) rtC2_quiet).1 (by decide)
  have h1 := (C2_ttl_decrement_and_checksum rtC1 dW 2 (by decide) rtC1_quiet).2 (by decide)
  exact ⟨⟨by decide, by decide, by decide, by decide⟩, h2,
    h1.1, h1.2.2.1, h1.2.2.2.2.2.2.2.2.2.2.2.2.2.2.1⟩

/-! ### Helper lemmas about the interface -/

theorem keysUnique_filter {α : Type} (p : Nat × α → Bool) (l : List (Nat × α))
    (h : keysUnique l) : keysUnique (l.filter p) :=
  ((List.filter_sublist l).map Prod.fst).nodup h

theorem lookupA_filter_allneg {α : Type} (k : Nat) (p : Nat × α → Bool)
    (l : List (Nat × α)) (h : ∀ v, p (k, v) = false) :
    lookupA k (l.filter p) = none := by
  induction l with
  | nil => simp [lookupA]
  | cons q rest ih =>
    obtain ⟨k2, w⟩ := q
    by_cases hk : k2 = k
    · subst hk
      simp [List.filter_cons, h w, ih]
    · by_cases hp : p (k2, w)
      · simp [List.filter_cons, hp, lookupA, hk, ih]
      · simp [List.filter_cons, hp, ih]

theorem recv_reply_flush (n : NetworkInterface) (m : ARPMessage) (src : EthAddr)
    (q : List (InternetDatagram × Nat))
    (hop : m.opcode = OPCODE_REPLY)
    (hdg : lookupA m.sender_ip_address n.pending_dgrams = some q) :
    (recv_frame n { dst := n.ethernet_address, src := src, type := TYPE_ARP
                  , payload := .arp m }).1.outbound
      = n.outbound ++ q.map (fun p => mkIPv4Frame n m.sender_ethernet_address p.1)
  ∧ lookupA m.sender_ip_address
      (recv_frame n { dst := n.ethernet_address, src := src, type := TYPE_ARP
                    , payload := .arp m }).1.pending_dgrams = none
  ∧ lookupA m.sender_ip_address
      (recv_frame n { dst := n.ethernet_address, src := src, type := TYPE_ARP
                    , payload := .arp m }).1.pending_reqs = none := by
  have hcond : ¬(m.opcode = OPCODE_REQUEST ∧ m.target_ip_address = n.ip_address) := by
    rw [hop]
    simp [OPCODE_REPLY, OPCODE_REQUEST]
  have hstep : (recv_frame n { dst := n.ethernet_address, src := src, type := TYPE_ARP
                             , payload := .arp m }).1 = recvArp n m := by
    simp [recv_frame, TYPE_ARP, TYPE_IPv4]
  rw [hstep]
  simp only [recvArp, if_neg hcond, flushPending]
  refine ⟨?_, ?_, ?_⟩
  · simp [hdg, mkIPv4Frame]
  · simp [lookupA_eraseA_self]
  · simp [lookupA_eraseA_self]

/-- C5: a cached ARP mapping whose age has reached 30,000 ms is never used:
`send_datagram` to that next hop emits no IPv4 frame but queues the datagram
and (with no sufficiently recent request in flight) broadcasts an ARP
REQUEST, which is not an IPv4 frame; and after any `tick`, every surviving
cache entry is strictly younger than 30,000 ms. -/
theorem C5_mapping_expiry (n : NetworkInterface) (d : InternetDatagram)
    (nh eth t ms : Nat)
    (hc : lookupA nh n.arp_cache = some (eth, t))
    (hstale : ARP_MAPPING_TTL ≤ n.clock - t)
    (hreq : needNewRequest n nh = true) :
    (send_datagram n d nh).outbound = n.outbound ++ [mkRequestFrame n nh]
  ∧ isIPv4Frame (mkRequestFrame n nh) = false
  ∧ lookupA nh (send_datagram n d nh).pending_dgrams
      = some ((lookupA nh n.pending_dgrams).getD [] ++ [(d, nh)])
  ∧ ∀ e ∈ (tick n ms).arp_cache, (tick n ms).clock - e.2.2 < ARP_MAPPING_TTL := by
  have hcf : cacheFresh n nh = none := by
    simp only [cacheFresh, hc]
    rw [if_neg (by omega)]
  refine ⟨?_, by simp [isIPv4Frame, mkRequestFrame, TYPE_ARP, TYPE_IPv4], ?_, ?_⟩
  · simp [send_datagram, hcf, hreq]
  · simp [send_datagram, hcf, hreq, lookupA_insertA_self]
  · intro e he
    simp only [tick, List.mem_filter] at he
    have := he.2
    simpa using of_decide_eq_true this

/-- Concrete interface for the C5 witness: a mapping learned at time 0,
clock already at 30,000 ms. -/
def nC5 : NetworkInterface :=
  { ethernet_address := 2, ip_address := 0x04030201, outbound := []
  , arp_cache := [(0xC0A80001, 7, 0)], pending_reqs := [], pending_dgrams := []
  , clock := 30000 }

/-- Witness for C5 at a concrete stale mapping. -/
theorem C5_mapping_expiry_witness :
    (lookupA 0xC0A80001 nC5.arp_cache = some (7, 0)
      ∧ ARP_MAPPING_TTL ≤ nC5.clock - 0
      ∧ needNewRequest nC5 0xC0A80001 = true)
  ∧ ((send_datagram nC5 dW 0xC0A80001).outbound = nC5.outbound ++ [mkRequestFrame nC5 0xC0A80001]
    ∧ isIPv4Frame (mkRequestFrame nC5 0xC0A80001) = false
    ∧ lookupA 0xC0A80001 (send_datagram nC5 dW 0xC0A80001).pending_dgrams
        = some ((lookupA 0xC0A80001 nC5.pending_dgrams).getD [] ++ [(dW, 0xC0A80001)])
    ∧ ∀ e ∈ (tick nC5 100).arp_cache, (tick nC5 100).clock - e.2.2 < ARP_MAPPING_TTL) :=
  ⟨⟨by decide, by decide, by decide⟩,
   C5_mapping_expiry nC5 dW 0xC0A80001 7 0 100 (by decide) (by decide) (by decide)⟩

/-- C6: with an ARP request for `ip` in flight and the mapping still
unresolved, a `send_datagram` to `ip` broadcasts a second ARP REQUEST exactly
when 5,000 ms or more have elapsed since the request was sent (re-stamping
the in-flight time), and broadcasts nothing new before that horizon. -/
theorem C6_request_retry_horizon (n : NetworkInterface) (d : InternetDatagram)
    (ip t : Nat)
    (hc : cacheFresh n ip = none)
    (hr : lookupA ip n.pending_reqs = some t) :
    (ARP_REQUEST_RETRY ≤ n.clock - t →
        (send_datagram n d ip).outbound = n.outbound ++ [mkRequestFrame n ip]
      ∧ lookupA ip (send_datagram n d ip).pending_reqs = some n.clock)
  ∧ (n.clock - t < ARP_REQUEST_RETRY →
        (send_datagram n d ip).outbound = n.outbound
      ∧ lookupA ip (send_datagram n d ip).pending_reqs = some t) := by
  constructor
  · intro hlate
    have hnr : needNewRequest n ip = true := by
      simp only [needNewRequest, hr]
      exact decide_eq_true hlate
    constructor
    · simp [send_datagram, hc, hnr]
    · simp [send_datagram, hc, hnr, lookupA_insertA_self]
  · intro hearly
    have hnr : needNewRequest n ip = false := by
      simp only [needNewRequest, hr]
      simp only [decide_eq_false_iff_not]
      omega
    constructor
    · simp [send_datagram, hc, hnr]
    · simp [send_datagram, hc, hnr, hr]

/-- Concrete interface for the C6 witness, request sent at time 0, clock at
5,000 ms (horizon reached). -/
def nC6a : NetworkInterface :=
  { ethernet_address := 2, ip_address := 0x04030201, outbound := []
  , arp_cache := [], pending_reqs := [(0xC0A80001, 0)], pending_dgrams := []
  , clock := 5000 }

/-- Concrete interface for the C6 witness, request sent at time 0, clock at
4,999 ms (inside the horizon). -/
def nC6b : NetworkInterface :=
  { ethernet_address := 2, ip_address := 0x04030201, outbound := []
  , arp_cache := [], pending_reqs := [(0xC0A80001, 0)], pending_dgrams := []
  , clock := 4999 }

/-- Witness for C6 on both sides of the 5,000 ms horizon. -/
theorem C6_request_retry_horizon_witness :
    (cacheFresh nC6a 0xC0A80001 = none
      ∧ lookupA 0xC0A80001 nC6a.pending_reqs = some 0
      ∧ ARP_REQUEST_RETRY ≤ nC6a.clock - 0
      ∧ cacheFresh nC6b 0xC0A80001 = none
      ∧ lookupA 0xC0A80001 nC6b.pending_reqs = some 0
      ∧ nC6b.clock - 0 < ARP_REQUEST_RETRY)
  ∧ ((send_datagram nC6a dW 0xC0A80001).outbound
        = nC6a.outbound ++ [mkRequestFrame nC6a 0xC0A80001]
    ∧ lookupA 0xC0A80001 (send_datagram nC6a dW 0xC0A80001).pending_reqs = some nC6a.clock)
  ∧ ((send_datagram nC6b dW 0xC0A80001).outbound = nC6b.outbound
    ∧ lookupA 0xC0A80001 (send_datagram nC6b dW 0xC0A80001).pending_reqs = some 0) := by
  have ha := (C6_request_retry_horizon nC6a dW 0xC0A80001 0 (by decide) (by decide)).1
    (by decide)
  have hb := (C6_request_retry_horizon nC6b dW 0xC0A80001 0 (by decide) (by decide)).2
    (by decide)
  exact ⟨⟨by decide, by decide, by decide, by decide, by decide, by decide⟩, ha, hb⟩

/-- C8: an ARP REQUEST addressed to us (or broadcast) whose target IP is our
IPv4 address produces exactly one ARP REPLY frame per reception — destination
the requester's Ethernet address, source ours, sender (our Ethernet, our
IPv4), target (the requester's Ethernet, the requester's IP) — followed only
by IPv4 flush frames, so the count of ARP REPLY frames grows by exactly
one. -/
theorem C8_arp_request_reply (n : NetworkInterface) (fr : EthernetFrame) (m : ARPMessage)
    (hdst : fr.dst = n.ethernet_address ∨ fr.dst = ETHERNET_BROADCAST)
    (htype : fr.type = TYPE_ARP)
    (hpl : fr.payload = EthPayload.arp m)
    (hop : m.opcode = OPCODE_REQUEST)
    (htarget : m.target_ip_address = n.ip_address) :
    ∃ fl, (recv_frame n fr).1.outbound = n.outbound ++ mkReplyFrame n m :: fl
      ∧ (∀ f ∈ fl, isIPv4Frame f = true)
      ∧ isArpReply (mkReplyFrame n m) = true
      ∧ mkReplyFrame n m
          = { dst := m.sender_ethernet_address, src := n.ethernet_address
            , type := TYPE_ARP
            , payload := .arp { opcode := OPCODE_REPLY
                              , sender_ethernet_address := n.ethernet_address
                              , sender_ip_address := n.ip_address
                              , target_ethernet_address := m.sender_ethernet_address
                              , target_ip_address := m.sender_ip_address } }
      ∧ (recv_frame n fr).1.outbound.countP isArpReply
          = n.outbound.countP isArpReply + 1 := by
  have hnotipv4 : ¬fr.type = TYPE_IPv4 := by
    rw [htype]
    simp [TYPE_ARP, TYPE_IPv4]
  have hcond : m.opcode = OPCODE_REQUEST ∧ m.target_ip_address = n.ip_address :=
    ⟨hop, htarget⟩
  have hout : (recv_frame n fr).1.outbound
      = n.outbound ++ mkReplyFrame n m
        :: ((lookupA m.sender_ip_address n.pending_dgrams).getD []).map
            (fun p => mkIPv4Frame n m.sender_ethernet_address p.1) := by
    simp only [recv_frame]
    rw [if_pos hdst, if_neg hnotipv4, if_pos htype, hpl]
    simp only [recvArp, if_pos hcond, flushPending]
    simp [mkIPv4Frame]
  refine ⟨_, hout, ?_, ?_, rfl, ?_⟩
  · intro f hf
    obtain ⟨p, hp, rfl⟩ := List.mem_map.mp hf
    simp [isIPv4Frame, mkIPv4Frame]
  · simp [isArpReply, mkReplyFrame, TYPE_ARP, OPCODE_REPLY]
  · rw [hout]
    rw [List.countP_append, List.countP_cons]
    have hflush : (((lookupA m.sender_ip_address n.pending_dgrams).getD []).map
        (fun p => mkIPv4Frame n m.sender_ethernet_address p.1)).countP isArpReply = 0 := by
      rw [List.countP_eq_zero]
      intro f hf
      obtain ⟨p, hp, rfl⟩ := List.mem_map.mp hf
      simp [isArpReply, mkIPv4Frame]
    have hrt : isArpReply (mkReplyFrame n m) = true := by
      simp [isArpReply, mkReplyFrame, TYPE_ARP, OPCODE_REPLY]
    simp [hflush, hrt]

/-- A broadcast ARP REQUEST from 192.168.0.1 asking for our address. -/
def reqFrameW : EthernetFrame :=
  { dst := ETHERNET_BROADCAST, src := 7, type := TYPE_ARP
  , payload := .arp { opcode := OPCODE_REQUEST, sender_ethernet_address := 7
                    , sender_ip_address := 0xC0A80001, target_ethernet_address := 0
                    , target_ip_address := 0x04030201 } }

/-- Witness for C8 at a concrete broadcast request. -/
theorem C8_arp_request_reply_witness :
    (reqFrameW.dst = nC6b.ethernet_address ∨ reqFrameW.dst = ETHERNET_BROADCAST)
  ∧ (∃ fl, (recv_frame nC6b reqFrameW).1.outbound
        = nC6b.outbound ++ mkReplyFrame nC6b
            { opcode := OPCODE_REQUEST, sender_ethernet_address := 7
            , sender_ip_address := 0xC0A80001, target_ethernet_address := 0
            , target_ip_address := 0x04030201 } :: fl
      ∧ (∀ f ∈ fl, isIPv4Frame f = true)
      ∧ isArpReply (mkReplyFrame nC6b
            { opcode := OPCODE_REQUEST, sender_ethernet_address := 7
            , sender_ip_address := 0xC0A80001, target_ethernet_address := 0
            , target_ip_address := 0x04030201 }) = true
      ∧ mkReplyFrame nC6b
            { opcode := OPCODE_REQUEST, sender_ethernet_address := 7
            , sender_ip_address := 0xC0A80001, target_ethernet_address := 0
            , target_ip_address := 0x04030201 }
          = { dst := 7, src := nC6b.ethernet_address, type := TYPE_ARP
            , payload := .arp { opcode := OPCODE_REPLY
                              , sender_ethernet_address := nC6b.ethernet_address
                              , sender_ip_address := nC6b.ip_address
                              , target_ethernet_address := 7
                              , target_ip_address := 0xC0A80001 } }
      ∧ (recv_frame nC6b reqFrameW).1.outbound.countP isArpReply
          = nC6b.outbound.countP isArpReply + 1) :=
  ⟨Or.inr (by decide),
   C8_arp_request_reply nC6b reqFrameW
     { opcode := OPCODE_REQUEST, sender_ethernet_address := 7
     , sender_ip_address := 0xC0A80001, target_ethernet_address := 0
     , target_ip_address := 0x04030201 }
     (Or.inr (by decide)) (by decide) (by decide) (by decide) (by decide)⟩

/-! ### Event traces for the coalescing and queue-lifetime claims -/

/-- Events that are ticks or sends to `ip` only. -/
def okEvents (ip : Nat) : List Event → Bool
  | [] => true
  | .tk _ :: es => okEvents ip es
  | .send _ nh :: es => (nh = ip) && okEvents ip es
  | .recv _ :: es => false

/-- Events that are ticks or sends (to any next hop), with no receptions. -/
def tickSendOnly : List Event → Bool
  | [] => true
  | .tk _ :: es => tickSendOnly es
  | .send _ _ :: es => tickSendOnly es
  | .recv _ :: es => false

/-- Total milliseconds ticked by a sequence of events. -/
def tickSum : List Event → Nat
  | [] => 0
  | .tk ms :: es => ms + tickSum es
  | _ :: es => tickSum es

theorem tick_clock (n : NetworkInterface) (ms : Nat) : (tick n ms).clock = n.clock + ms := rfl

theorem send_datagram_clock (n : NetworkInterface) (d : InternetDatagram) (nh : Nat) :
    (send_datagram n d nh).clock = n.clock := by
  unfold send_datagram
  cases hcf : cacheFresh n nh with
  | some eth => rfl
  | none =>
    cases hnr : needNewRequest n nh with
    | true => simp [hnr]
    | false => simp [hnr]

/-- The state an interface stays in while exactly one ARP request for `ip`,
stamped `t0`, is in flight and the queue for `ip` holds `q`. -/
structure MidState (n0 : NetworkInterface) (ip t0 : Nat)
    (q : List (InternetDatagram × Nat)) (n : NetworkInterface) : Prop where
  eth : n.ethernet_address = n0.ethernet_address
  ipa : n.ip_address = n0.ip_address
  out : n.outbound = n0.outbound ++ [mkRequestFrame n0 ip]
  cache : lookupA ip n.arp_cache = none
  req : lookupA ip n.pending_reqs = some t0
  dg : lookupA ip n.pending_dgrams = some q
  uniq : keysUnique n.pending_reqs
  tle : t0 ≤ n.clock

theorem midState_tick (n0 : NetworkInterface) (ip t0 : Nat)
    (q : List (InternetDatagram × Nat)) (n : NetworkInterface) (ms : Nat)
    (hm : MidState n0 ip t0 q n)
    (hfresh : n.clock + ms - t0 ≤ ARP_REQUEST_RETRY) :
    MidState n0 ip t0 q (tick n ms) := by
  obtain ⟨he, hi, ho, hc, hr, hd, hu, ht⟩ := hm
  refine ⟨he, hi, ho, ?_, ?_, ?_, ?_, by rw [tick_clock]; omega⟩
  · exact lookupA_filter_none _ _ _ hc
  · exact lookupA_filter_of_pos _ _ _ _ hr (by simpa using hfresh)
  · refine lookupA_filter_of_pos _ _ _ _ hd ?_
    simp only [reqExpired, hr, Bool.not_eq_true']
    simp only [decide_eq_false_iff_not]
    omega
  · exact keysUnique_filter _ _ hu

theorem midState_send (n0 : NetworkInterface) (ip t0 : Nat)
    (q : List (InternetDatagram × Nat)) (n : NetworkInterface) (d : InternetDatagram)
    (hm : MidState n0 ip t0 q n)
    (hfresh : n.clock - t0 < ARP_REQUEST_RETRY) :
    MidState n0 ip t0 (q ++ [(d, ip)]) (send_datagram n d ip) := by
  obtain ⟨he, hi, ho, hc, hr, hd, hu, ht⟩ := hm
  have hcf : cacheFresh n ip = none := by simp [cacheFresh, hc]
  have hnr : needNewRequest n ip = false := by
    simp only [needNewRequest, hr, decide_eq_false_iff_not]
    omega
  simp only [send_datagram, hcf, hnr, Bool.false_eq_true, if_false]
  exact ⟨he, hi, ho, hc, hr, by simp [hd, lookupA_insertA_self], hu, ht⟩

theorem midState_run (n0 : NetworkInterface) (ip t0 : Nat) (es : List Event)
    (q : List (InternetDatagram × Nat)) (n : NetworkInterface)
    (hm : MidState n0 ip t0 q n)
    (hok : okEvents ip es = true)
    (hwin : n.clock - t0 + tickSum es < ARP_REQUEST_RETRY) :
    MidState n0 ip t0 (q ++ sentTo ip es) (run n es) := by
  induction es generalizing q n with
  | nil => simpa [run, sentTo] using hm
  | cons e rest ih =>
    cases e with
    | tk ms =>
      simp only [okEvents] at hok
      simp only [tickSum] at hwin
      have ht := hm.tle
      have h1 : n.clock + ms - t0 ≤ ARP_REQUEST_RETRY := by omega
      have hm2 := midState_tick n0 ip t0 q n ms hm h1
      have hwin2 : (tick n ms).clock - t0 + tickSum rest < ARP_REQUEST_RETRY := by
        rw [tick_clock]
        omega
      simpa [run, applyEvent, sentTo] using ih q (tick n ms) hm2 hok hwin2
    | send d nh =>
      simp only [okEvents, Bool.and_eq_true, decide_eq_true_eq] at hok
      obtain ⟨rfl, hok2⟩ := hok
      simp only [tickSum] at hwin
      have hfresh : n.clock - t0 < ARP_REQUEST_RETRY := by omega
      have hm2 := midState_send n0 nh t0 q n d hm hfresh
      have hwin2 : (send_datagram n d nh).clock - t0 + tickSum rest < ARP_REQUEST_RETRY := by
        rw [send_datagram_clock]
        omega
      have hres := ih (q ++ [(d, nh)]) (send_datagram n d nh) hm2 hok2 hwin2
      simpa [run, applyEvent, sentTo] using hres
    | recv fr => simp [okEvents] at hok

/-- C4: from a state with no cache entry, no in-flight request and no queue
for `ip`, a `send_datagram` to `ip` followed by any ticks and further sends to
`ip` within a 5,000 ms window broadcasts exactly one ARP REQUEST in total — at
most one request per IP is pending at every moment (key uniqueness) — and when
a resolving ARP REPLY arrives, every queued datagram goes out as an IPv4
frame in the original call order, after which the queue and the
pending-request record for `ip` are gone. -/
theorem C4_coalesced_requests (n0 : NetworkInterface) (d0 : InternetDatagram) (ip : Nat)
    (es : List Event)
    (hcache : lookupA ip n0.arp_cache = none)
    (hreq : lookupA ip n0.pending_reqs = none)
    (hdg : lookupA ip n0.pending_dgrams = none)
    (huniq : keysUnique n0.pending_reqs)
    (hok : okEvents ip es = true)
    (hwin : tickSum es < ARP_REQUEST_RETRY) :
    (run (send_datagram n0 d0 ip) es).outbound = n0.outbound ++ [mkRequestFrame n0 ip]
  ∧ lookupA ip (run (send_datagram n0 d0 ip) es).pending_dgrams
      = some ((d0, ip) :: sentTo ip es)
  ∧ keysUnique (run (send_datagram n0 d0 ip) es).pending_reqs
  ∧ ∀ (m : ARPMessage) (src : EthAddr), m.sender_ip_address = ip →
      m.opcode = OPCODE_REPLY →
      (recv_frame (run (send_datagram n0 d0 ip) es)
          { dst := (run (send_datagram n0 d0 ip) es).ethernet_address, src := src
          , type := TYPE_ARP, payload := .arp m }).1.outbound
        = (run (send_datagram n0 d0 ip) es).outbound
          ++ ((d0, ip) :: sentTo ip es).map
              (fun p => mkIPv4Frame (run (send_datagram n0 d0 ip) es)
                m.sender_ethernet_address p.1)
      ∧ lookupA ip (recv_frame (run (send_datagram n0 d0 ip) es)
          { dst := (run (send_datagram n0 d0 ip) es).ethernet_address, src := src
          , type := TYPE_ARP, payload := .arp m }).1.pending_dgrams = none
      ∧ lookupA ip (recv_frame (run (send_datagram n0 d0 ip) es)
          { dst := (run (send_datagram n0 d0 ip) es).ethernet_address, src := src
          , type := TYPE_ARP, payload := .arp m }).1.pending_reqs = none := by
  have hcf : cacheFresh n0 ip = none := by simp [cacheFresh, hcache]
  have hnr : needNewRequest n0 ip = true := by simp [needNewRequest, hreq]
  have hstep : send_datagram n0 d0 ip = { n0 with
      pending_dgrams := insertA ip [(d0, ip)] n0.pending_dgrams
    , outbound := n0.outbound ++ [mkRequestFrame n0 ip]
    , pending_reqs := insertA ip n0.clock n0.pending_reqs } := by
    simp [send_datagram, hcf, hnr, hdg]
  have hm1 : MidState n0 ip n0.clock [(d0, ip)] (send_datagram n0 d0 ip) := by
    rw [hstep]
    exact ⟨rfl, rfl, rfl, hcache, lookupA_insertA_self _ _ _, lookupA_insertA_self _ _ _,
      keysUnique_insertA _ _ _ huniq, le_refl _⟩
  have hwin1 : (send_datagram n0 d0 ip).clock - n0.clock + tickSum es < ARP_REQUEST_RETRY := by
    rw [send_datagram_clock]
    omega
  have hm2 := midState_run n0 ip n0.clock es [(d0, ip)] (send_datagram n0 d0 ip)
    hm1 hok hwin1
  have hq2 : lookupA ip (run (send_datagram n0 d0 ip) es).pending_dgrams
      = some ((d0, ip) :: sentTo ip es) := by
    simpa using hm2.dg
  refine ⟨hm2.out, hq2, hm2.uniq, ?_⟩
  intro m src hsm hop
  have hdg2 : lookupA m.sender_ip_address
      (run (send_datagram n0 d0 ip) es).pending_dgrams
      = some ((d0, ip) :: sentTo ip es) := by
    rw [hsm]
    exact hq2
  have hfl := recv_reply_flush (run (send_datagram n0 d0 ip) es) m src
    ((d0, ip) :: sentTo ip es) hop hdg2
  rw [hsm] at hfl
  exact hfl

/-- A clean concrete interface for the trace witnesses. -/
def nT0 : NetworkInterface := initInterface 2 0x04030201

/-- The next-hop IP 192.168.0.1 used by the trace witnesses. -/
def ipW : Nat := 0xC0A80001

/-- Two sends to the same next hop spread over 500 ms. -/
def esC4 : List Event := [.tk 300, .send dT1 ipW, .tk 200, .send dW ipW]

/-- The resolving ARP REPLY message used by the trace witnesses. -/
def replyM : ARPMessage :=
  { opcode := OPCODE_REPLY, sender_ethernet_address := 7, sender_ip_address := ipW
  , target_ethernet_address := 2, target_ip_address := 0x04030201 }

/-- Witness for C4: three sends coalesce into one ARP REQUEST and flush in
order on the reply. -/
theorem C4_coalesced_requests_witness :
    (lookupA ipW nT0.arp_cache = none ∧ lookupA ipW nT0.pending_reqs = none
      ∧ lookupA ipW nT0.pending_dgrams = none ∧ keysUnique nT0.pending_reqs
      ∧ okEvents ipW esC4 = true ∧ tickSum esC4 < ARP_REQUEST_RETRY
      ∧ replyM.sender_ip_address = ipW ∧ replyM.opcode = OPCODE_REPLY)
  ∧ ((run (send_datagram nT0 dW ipW) esC4).outbound = nT0.outbound ++ [mkRequestFrame nT0 ipW]
    ∧ lookupA ipW (run (send_datagram nT0 dW ipW) esC4).pending_dgrams
        = some ((dW, ipW) :: sentTo ipW esC4)
    ∧ keysUnique (run (send_datagram nT0 dW ipW) esC4).pending_reqs)
  ∧ ((recv_frame (run (send_datagram nT0 dW ipW) esC4)
        { dst := (run (send_datagram nT0 dW ipW) esC4).ethernet_address, src := 7
        , type := TYPE_ARP, payload := .arp replyM }).1.outbound
      = (run (send_datagram nT0 dW ipW) esC4).outbound
        ++ ((dW, ipW) :: sentTo ipW esC4).map
            (fun p => mkIPv4Frame (run (send_datagram nT0 dW ipW) esC4)
              replyM.sender_ethernet_address p.1)
    ∧ lookupA ipW (recv_frame (run (send_datagram nT0 dW ipW) esC4)
        { dst := (run (send_datagram nT0 dW ipW) esC4).ethernet_address, src := 7
        , type := TYPE_ARP, payload := .arp replyM }).1.pending_dgrams = none
    ∧ lookupA ipW (recv_frame (run (send_datagram nT0 dW ipW) esC4)
        { dst := (run (send_datagram nT0 dW ipW) esC4).ethernet_address, src := 7
        , type := TYPE_ARP, payload := .arp replyM }).1.pending_reqs = none) := by
  have happ := C4_coalesced_requests nT0 dW ipW esC4 (by decide) (by decide) (by decide)
    (by simp [keysUnique, nT0, initInterface]) (by decide) (by decide)
  exact ⟨⟨by decide, by decide, by decide, by simp [keysUnique, nT0, initInterface],
    by decide, by decide, by decide, by decide⟩,
    ⟨happ.1, happ.2.1, happ.2.2.1⟩, happ.2.2.2 replyM 7 (by decide) (by decide)⟩

/-! ### Pending-queue lifetime (C3) -/

/-- C3 replay of `net_interface_test_hidden_5.cc`: queue `dW` for 192.168.0.1. -/
def nC3b : NetworkInterface := send_datagram nT0 dW ipW

/-- Then 5,100 ms pass with no reply. -/
def nC3c : NetworkInterface := tick nC3b 5100

/-- Then a second, different datagram is sent to the same next hop. -/
def nC3d : NetworkInterface := send_datagram nC3c dT1 ipW

/-- Then the resolving ARP REPLY finally arrives. -/
def nC3e : NetworkInterface :=
  (recv_frame nC3d { dst := 2, src := 7, type := TYPE_ARP, payload := .arp replyM }).1

/-- C3 counterexample: the datagram `dW`, queued behind the ARP request for
192.168.0.1, is dropped by the 5,100 ms tick — before any resolution — and
after the late reply the outbound queue holds the two ARP REQUESTs and a
single IPv4 frame carrying only the second datagram `dT1`; no frame carrying
`dW` is ever transmitted, against the claim that queued datagrams survive
every tick until resolution.  This is the behaviour the repository's own test
`net_interface_test_hidden_5.cc` ("Pending datagrams dropped when pending
request expires") requires. -/
theorem C3_counterexample :
    lookupA ipW nC3b.pending_dgrams = some [(dW, ipW)]
  ∧ lookupA ipW nC3c.pending_dgrams = none
  ∧ lookupA ipW nC3c.pending_reqs = none
  ∧ nC3e.outbound
      = [mkRequestFrame nT0 ipW, mkRequestFrame nC3c ipW, mkIPv4Frame nC3d 7 dT1]
  ∧ dW ≠ dT1 := by decide

/-- The state in which an ARP request for `ip`, stamped `t0`, is in flight
with queue `q` behind it; unlike `MidState` it allows traffic to other next
hops to proceed. -/
structure KeepState (ip t0 : Nat) (q : List (InternetDatagram × Nat))
    (n : NetworkInterface) : Prop where
  cache : lookupA ip n.arp_cache = none
  req : lookupA ip n.pending_reqs = some t0
  dg : lookupA ip n.pending_dgrams = some q
  tle : t0 ≤ n.clock

theorem keepState_tick (ip t0 : Nat) (q : List (InternetDatagram × Nat))
    (n : NetworkInterface) (ms : Nat) (hk : KeepState ip t0 q n)
    (hfresh : n.clock + ms - t0 ≤ ARP_REQUEST_RETRY) :
    KeepState ip t0 q (tick n ms) := by
  obtain ⟨hc, hr, hd, ht⟩ := hk
  refine ⟨lookupA_filter_none _ _ _ hc,
    lookupA_filter_of_pos _ _ _ _ hr (by simpa using hfresh), ?_,
    by rw [tick_clock]; omega⟩
  refine lookupA_filter_of_pos _ _ _ _ hd ?_
  simp only [reqExpired, hr, Bool.not_eq_true']
  simp only [decide_eq_false_iff_not]
  omega

theorem keepState_send (ip t0 : Nat) (q : List (InternetDatagram × Nat))
    (n : NetworkInterface) (d : InternetDatagram) (nh : Nat) (hk : KeepState ip t0 q n)
    (hfresh : n.clock - t0 < ARP_REQUEST_RETRY) :
    KeepState ip t0 (q ++ sentTo ip [.send d nh]) (send_datagram n d nh) := by
  obtain ⟨hc, hr, hd, ht⟩ := hk
  by_cases hnh : nh = ip
  · subst hnh
    have hcf : cacheFresh n nh = none := by simp [cacheFresh, hc]
    have hnr : needNewRequest n nh = false := by
      simp only [needNewRequest, hr, decide_eq_false_iff_not]
      omega
    simp only [send_datagram, hcf, hnr, Bool.false_eq_true, if_false, sentTo]
    exact ⟨hc, hr, by simp [hd, lookupA_insertA_self], ht⟩
  · have hsent : sentTo ip [Event.send d nh] = [] := by simp [sentTo, hnh]
    rw [hsent, List.append_nil]
    unfold send_datagram
    cases hcf : cacheFresh n nh with
    | some eth => exact ⟨hc, hr, hd, ht⟩
    | none =>
      cases hnr : needNewRequest n nh with
      | true =>
        simp only [if_true]
        exact ⟨hc, by rw [lookupA_insertA_ne _ _ _ _ hnh]; exact hr,
          by rw [lookupA_insertA_ne _ _ _ _ hnh]; exact hd, ht⟩
      | false =>
        simp only [Bool.false_eq_true, if_false]
        exact ⟨hc, hr, by rw [lookupA_insertA_ne _ _ _ _ hnh]; exact hd, ht⟩

theorem keepState_run (ip t0 : Nat) (es : List Event)
    (q : List (InternetDatagram × Nat)) (n : NetworkInterface)
    (hk : KeepState ip t0 q n)
    (hts : tickSendOnly es = true)
    (hwin : n.clock - t0 + tickSum es < ARP_REQUEST_RETRY) :
    KeepState ip t0 (q ++ sentTo ip es) (run n es) := by
  induction es generalizing q n with
  | nil => simpa [run, sentTo] using hk
  | cons e rest ih =>
    cases e with
    | tk ms =>
      simp only [tickSendOnly] at hts
      simp only [tickSum] at hwin
      have ht := hk.tle
      have hk2 := keepState_tick ip t0 q n ms hk (by omega)
      have hwin2 : (tick n ms).clock - t0 + tickSum rest < ARP_REQUEST_RETRY := by
        rw [tick_clock]
        omega
      simpa [run, applyEvent, sentTo] using ih q (tick n ms) hk2 hts hwin2
    | send d nh =>
      simp only [tickSendOnly] at hts
      simp only [tickSum] at hwin
      have hk2 := keepState_send ip t0 q n d nh hk (by omega)
      have hwin2 : (send_datagram n d nh).clock - t0 + tickSum rest < ARP_REQUEST_RETRY := by
        rw [send_datagram_clock]
        omega
      have hres := ih (q ++ sentTo ip [Event.send d nh]) (send_datagram n d nh) hk2 hts hwin2
      by_cases hnh : nh = ip
      · subst hnh
        simpa [run, applyEvent, sentTo] using hres
      · simpa [run, applyEvent, sentTo, hnh] using hres
    | recv fr => simp [tickSendOnly] at hts

/-- C3 (amended): a datagram queued behind an in-flight ARP request for `ip`
survives every tick and send that leaves the request inside its 5,000 ms
retry horizon, accumulating later datagrams to `ip` in order behind it, and
when a resolving ARP REPLY arrives the whole queue is transmitted in
insertion order and the queue and request record removed; but at any tick
that pushes the request's age beyond 5,000 ms the queue for `ip` is dropped
with the expired request. -/
theorem C3_amended_queue_lifetime (n : NetworkInterface) (ip t0 : Nat)
    (q : List (InternetDatagram × Nat)) (es : List Event)
    (hc : lookupA ip n.arp_cache = none)
    (hr : lookupA ip n.pending_reqs = some t0)
    (hd : lookupA ip n.pending_dgrams = some q)
    (ht : t0 ≤ n.clock)
    (hts : tickSendOnly es = true)
    (hwin : n.clock - t0 + tickSum es < ARP_REQUEST_RETRY) :
    lookupA ip (run n es).pending_dgrams = some (q ++ sentTo ip es)
  ∧ (∀ (m : ARPMessage) (src : EthAddr), m.sender_ip_address = ip →
      m.opcode = OPCODE_REPLY →
      (recv_frame (run n es)
          { dst := (run n es).ethernet_address, src := src
          , type := TYPE_ARP, payload := .arp m }).1.outbound
        = (run n es).outbound
          ++ (q ++ sentTo ip es).map
              (fun p => mkIPv4Frame (run n es) m.sender_ethernet_address p.1)
      ∧ lookupA ip (recv_frame (run n es)
          { dst := (run n es).ethernet_address, src := src
          , type := TYPE_ARP, payload := .arp m }).1.pending_dgrams = none
      ∧ lookupA ip (recv_frame (run n es)
          { dst := (run n es).ethernet_address, src := src
          , type := TYPE_ARP, payload := .arp m }).1.pending_reqs = none)
  ∧ (∀ ms, ARP_REQUEST_RETRY < (run n es).clock + ms - t0 →
      lookupA ip (tick (run n es) ms).pending_dgrams = none) := by
  have hk := keepState_run ip t0 es q n ⟨hc, hr, hd, ht⟩ hts hwin
  refine ⟨hk.dg, ?_, ?_⟩
  · intro m src hsm hop
    have hdg2 : lookupA m.sender_ip_address (run n es).pending_dgrams
        = some (q ++ sentTo ip es) := by
      rw [hsm]
      exact hk.dg
    have hfl := recv_reply_flush (run n es) m src (q ++ sentTo ip es) hop hdg2
    rw [hsm] at hfl
    exact hfl
  · intro ms hms
    have hexp : reqExpired (run n es).pending_reqs ((run n es).clock + ms) ip = true := by
      simp only [reqExpired, hk.req]
      exact decide_eq_true hms
    refine lookupA_filter_allneg _ _ _ ?_
    intro v
    simp [hexp]

/-- Witness for the amended C3: starting right after the first send (request
stamped at time 0, `dW` queued), a 1,000 ms tick and a second send keep both
datagrams queued, the reply flushes them in order, and a further 4,200 ms
tick (had no reply come) would have dropped the queue. -/
theorem C3_amended_queue_lifetime_witness :
    (lookupA ipW nC3b.arp_cache = none ∧ lookupA ipW nC3b.pending_reqs = some 0
      ∧ lookupA ipW nC3b.pending_dgrams = some [(dW, ipW)] ∧ 0 ≤ nC3b.clock
      ∧ tickSendOnly [Event.tk 1000, Event.send dT1 ipW] = true
      ∧ nC3b.clock - 0 + tickSum [Event.tk 1000, Event.send dT1 ipW] < ARP_REQUEST_RETRY
      ∧ replyM.sender_ip_address = ipW ∧ replyM.opcode = OPCODE_REPLY
      ∧ ARP_REQUEST_RETRY
          < (run nC3b [Event.tk 1000, Event.send dT1 ipW]).clock + 4200 - 0)
  ∧ lookupA ipW (run nC3b [Event.tk 1000, Event.send dT1 ipW]).pending_dgrams
      = some ([(dW, ipW)] ++ sentTo ipW [Event.tk 1000, Event.send dT1 ipW])
  ∧ ((recv_frame (run nC3b [Event.tk 1000, Event.send dT1 ipW])
        { dst := (run nC3b [Event.tk 1000, Event.send dT1 ipW]).ethernet_address
        , src := 7, type := TYPE_ARP, payload := .arp replyM }).1.outbound
      = (run nC3b [Event.tk 1000, Event.send dT1 ipW]).outbound
        ++ ([(dW, ipW)] ++ sentTo ipW [Event.tk 1000, Event.send dT1 ipW]).map
            (fun p => mkIPv4Frame (run nC3b [Event.tk 1000, Event.send dT1 ipW])
              replyM.sender_ethernet_address p.1)
    ∧ lookupA ipW (recv_frame (run nC3b [Event.tk 1000, Event.send dT1 ipW])
        { dst := (run nC3b [Event.tk 1000, Event.send dT1 ipW]).ethernet_address
        , src := 7, type := TYPE_ARP, payload := .arp replyM }).1.pending_dgrams = none
    ∧ lookupA ipW (recv_frame (run nC3b [Event.tk 1000, Event.send dT1 ipW])
        { dst := (run nC3b [Event.tk 1000, Event.send dT1 ipW]).ethernet_address
        , src := 7, type := TYPE_ARP, payload := .arp replyM }).1.pending_reqs = none)
  ∧ lookupA ipW
      (tick (run nC3b [Event.tk 1000, Event.send dT1 ipW]) 4200).pending_dgrams = none := by
  have happ := C3_amended_queue_lifetime nC3b ipW 0 [(dW, ipW)]
    [Event.tk 1000, Event.send dT1 ipW]
    (by decide) (by decide) (by decide) (by decide) (by decide) (by decide)
  exact ⟨⟨by decide, by decide, by decide, by decide, by decide, by decide, by decide,
    by decide, by decide⟩, happ.1,
    happ.2.1 replyM 7 (by decide) (by decide), happ.2.2 4200 (by decide)⟩

end IPv4Net
